import Mathlib

/-!
Shallow embedding of src/add_lib_trade.py, the interactive librarian-trade
data-entry workflow of the mc-trading-hall-db repository.

The SQLite database is modelled as a record of four tables (lists of rows).
The interactive session is modelled by a finite list of input strings: each
prompt issued by the program consumes exactly one input from the front of the
list and is recorded in a trace of `Prompt` events. A reader loop that would
block forever waiting for further input (the list is exhausted) returns
`none`. Python `input(...).strip().lower()` is modelled by `norm`, and
Python `int(...)` applied to a stripped string by `parseInt` (an optional
sign followed by decimal digits; exotic Python literals such as underscored
digits are outside the scope of the claims). The two loops whose
reprompting can revisit earlier inputs (`get_location`, `get_villager_id`)
carry a fuel argument bounding their iterations; a terminating run of the
Python program is a run of the model with any sufficiently large fuel.
-/

namespace MCTrade

/-- Row of the `locations` table: `locations(location PK, x_coord, z_coord)`. -/
structure LocationRow where
  location : String
  x_coord : Int
  z_coord : Int
deriving DecidableEq, Repr

/-- Row of the `villagers` table: `villagers(villager_id PK, location FK, job)`. -/
structure VillagerRow where
  villager_id : String
  location : String
  job : String
deriving DecidableEq, Repr

/-- Row of the `enchantments` table: `enchantments(enchantment PK, max_level, supported_items)`. -/
structure EnchantmentRow where
  enchantment : String
  max_level : Int
  supported_items : String
deriving DecidableEq, Repr

/-- Row of the `librarian_trades` table. -/
structure TradeRow where
  villager_id : String
  enchantment : String
  enchantment_level : Int
  cost_emeralds : Int
deriving DecidableEq, Repr

/-- The database state: the four tables touched by the workflow. -/
structure DB where
  locations : List LocationRow
  villagers : List VillagerRow
  enchantments : List EnchantmentRow
  librarian_trades : List TradeRow
deriving DecidableEq, Repr

/-- Prompt events: one per `input(...)` call site of add_lib_trade.py. -/
inductive Prompt where
  | location
  | addLocationConfirm
  | xCoord
  | zCoord
  | villagerId
  | moveConfirm
  | addVillagerConfirm
  | enchantment
  | level
  | cost
  | duplicateConfirm
deriving DecidableEq, Repr

/-- Status strings returned by `add_librarian_trade`. -/
inductive Status where
  | success
  | cancelled
  | full
  | error
deriving DecidableEq, Repr

/-- Python `str.strip()` on a character list: drop leading and trailing
whitespace. -/
def stripChars (l : List Char) : List Char :=
  ((l.dropWhile Char.isWhitespace).reverse.dropWhile Char.isWhitespace).reverse

/-- Python `input(...).strip().lower()`. -/
def norm (s : String) : String :=
  String.mk ((stripChars s.data).map Char.toLower)

/-- Decimal digit run accepted by Python `int(...)` (underscored literals
are not modelled; no claim depends on them). -/
def parseDigits : List Char → Option Nat
  | [] => none
  | l =>
    if l.all Char.isDigit then
      some (l.foldl (fun n c => 10 * n + (c.toNat - Char.toNat '0')) 0)
    else none

/-- Python `int(input(...).strip())`, as a partial parse: optional sign
followed by digits, surrounding whitespace ignored; ValueError is `none`. -/
def parseInt (s : String) : Option Int :=
  match stripChars s.data with
  | '-' :: ds => (parseDigits ds).map (fun n => -(n : Int))
  | '+' :: ds => (parseDigits ds).map (fun n => (n : Int))
  | ds => (parseDigits ds).map (fun n => (n : Int))

/-- A yes/no confirmation loop: reads inputs until one normalizes to "y" or
"n", re-prompting (with prompt `p`) on anything else. Models the three-way
`while True: ... input ... (y/n)` loops of the source. -/
def confirmLoop (p : Prompt) : List String → Option (Bool × List String × List Prompt)
  | [] => none
  | s :: rest =>
    if norm s = "y" then some (true, rest, [p])
    else if norm s = "n" then some (false, rest, [p])
    else (confirmLoop p rest).map (fun r => (r.1, r.2.1, p :: r.2.2))

/-- Coordinate sub-loop of `get_location` (lines 80-86): reads an X and a Z
coordinate, restarting the pair on any parse failure. -/
def getCoords : List String → Option (Int × Int × List String × List Prompt)
  | [] => none
  | sx :: rest =>
    match parseInt sx with
    | none => (getCoords rest).map (fun r => (r.1, r.2.1, r.2.2.1, Prompt.xCoord :: r.2.2.2))
    | some x =>
      match rest with
      | [] => none
      | sz :: rest2 =>
        match parseInt sz with
        | none =>
          (getCoords rest2).map
            (fun r => (r.1, r.2.1, r.2.2.1, Prompt.xCoord :: Prompt.zCoord :: r.2.2.2))
        | some z => some (x, z, rest2, [Prompt.xCoord, Prompt.zCoord])

/-- Membership test used by the SQL `SELECT 1 FROM locations WHERE location = ?`. -/
def locationExists (db : DB) (loc : String) : Bool :=
  db.locations.any (fun row => row.location == loc)

/-- The `get_location` loop (lines 57-99): loops until an existing location
name is entered, or a new one is confirmed and inserted (with coordinates)
and committed. Declining creation reprompts for a different name. The `fuel`
argument bounds the number of outer-loop iterations so that the function is
total; a run of the Python program that terminates is a run of this model
with any sufficiently large fuel, and `none` covers both an exhausted input
list and exhausted fuel. -/
def get_location (db : DB) : Nat → List String → Option (String × DB × List String × List Prompt)
  | 0, _ => none
  | _ + 1, [] => none
  | fuel + 1, s :: rest =>
    if norm s = "" then
      (get_location db fuel rest).map
        (fun r => (r.1, r.2.1, r.2.2.1, Prompt.location :: r.2.2.2))
    else if locationExists db (norm s) then
      some (norm s, db, rest, [Prompt.location])
    else
      match confirmLoop Prompt.addLocationConfirm rest with
      | none => none
      | some (true, rest2, t2) =>
        (getCoords rest2).map
          (fun r =>
            (norm s, { db with locations := db.locations ++ [⟨norm s, r.1, r.2.1⟩] },
              r.2.2.1, Prompt.location :: t2 ++ r.2.2.2))
      | some (false, rest2, t2) =>
        (get_location db fuel rest2).map
          (fun r => (r.1, r.2.1, r.2.2.1, Prompt.location :: t2 ++ r.2.2.2))

/-- The SQL `UPDATE villagers SET location = ? WHERE villager_id = ?` applied
to one row. -/
def updateVillagerLoc (v_id loc : String) (w : VillagerRow) : VillagerRow :=
  if w.villager_id == v_id then { w with location := loc } else w

/-- The `get_villager_id` loop (lines 101-156): loops until a villager id is
resolved. An existing non-librarian is rejected (reprompt); an existing
librarian at a different location may be relocated after confirmation
(decline reprompts); an existing librarian at the current location is
returned as is; an unknown id may be created as a new librarian after
confirmation (decline reprompts). The `fuel` argument plays the same role
as in `get_location`. -/
def get_villager_id (db : DB) (current_loc : String) :
    Nat → List String → Option (String × DB × List String × List Prompt)
  | 0, _ => none
  | _ + 1, [] => none
  | fuel + 1, s :: rest =>
    if norm s = "" then
      (get_villager_id db current_loc fuel rest).map
        (fun r => (r.1, r.2.1, r.2.2.1, Prompt.villagerId :: r.2.2.2))
    else
      match db.villagers.find? (fun w => w.villager_id == norm s) with
      | some w =>
        if w.job ≠ "librarian" then
          (get_villager_id db current_loc fuel rest).map
            (fun r => (r.1, r.2.1, r.2.2.1, Prompt.villagerId :: r.2.2.2))
        else if w.location ≠ current_loc then
          match confirmLoop Prompt.moveConfirm rest with
          | none => none
          | some (true, rest2, t2) =>
            some (norm s,
              { db with villagers := db.villagers.map (updateVillagerLoc (norm s) current_loc) },
              rest2, Prompt.villagerId :: t2)
          | some (false, rest2, t2) =>
            (get_villager_id db current_loc fuel rest2).map
              (fun r => (r.1, r.2.1, r.2.2.1, Prompt.villagerId :: t2 ++ r.2.2.2))
        else
          some (norm s, db, rest, [Prompt.villagerId])
      | none =>
        match confirmLoop Prompt.addVillagerConfirm rest with
        | none => none
        | some (true, rest2, t2) =>
          some (norm s,
            { db with villagers := db.villagers ++ [⟨norm s, current_loc, "librarian"⟩] },
            rest2, Prompt.villagerId :: t2)
        | some (false, rest2, t2) =>
          (get_villager_id db current_loc fuel rest2).map
            (fun r => (r.1, r.2.1, r.2.2.1, Prompt.villagerId :: t2 ++ r.2.2.2))

/-- The `get_enchantment` loop (lines 158-172): loops until the entered name
is found in the read-only `enchantments` table; returns the name with its
`max_level`. -/
def get_enchantment (db : DB) : List String → Option (String × Int × List String × List Prompt)
  | [] => none
  | s :: rest =>
    if norm s = "" then
      (get_enchantment db rest).map
        (fun r => (r.1, r.2.1, r.2.2.1, Prompt.enchantment :: r.2.2.2))
    else
      match db.enchantments.find? (fun e => e.enchantment == norm s) with
      | some e => some (norm s, e.max_level, rest, [Prompt.enchantment])
      | none =>
        (get_enchantment db rest).map
          (fun r => (r.1, r.2.1, r.2.2.1, Prompt.enchantment :: r.2.2.2))

/-- The `get_level` loop (lines 174-184): loops until an integer in
[1, max_lvl] is entered. -/
def get_level (max_lvl : Int) : List String → Option (Int × List String × List Prompt)
  | [] => none
  | s :: rest =>
    match parseInt s with
    | some level =>
      if 1 ≤ level ∧ level ≤ max_lvl then some (level, rest, [Prompt.level])
      else (get_level max_lvl rest).map (fun r => (r.1, r.2.1, Prompt.level :: r.2.2))
    | none => (get_level max_lvl rest).map (fun r => (r.1, r.2.1, Prompt.level :: r.2.2))

/-- The `get_cost` loop (lines 186-196): loops until an integer in [1, 64]
is entered. -/
def get_cost : List String → Option (Int × List String × List Prompt)
  | [] => none
  | s :: rest =>
    match parseInt s with
    | some c =>
      if 1 ≤ c ∧ c ≤ 64 then some (c, rest, [Prompt.cost])
      else (get_cost rest).map (fun r => (r.1, r.2.1, Prompt.cost :: r.2.2))
    | none => (get_cost rest).map (fun r => (r.1, r.2.1, Prompt.cost :: r.2.2))

/-- Python truthiness of an optional string argument (`if pre_loc:`): `None`
and the empty string are falsy. -/
def opt_truthy : Option String → Option String
  | some s => if s = "" then none else some s
  | none => none

/-- Lines 216-221: use the pre-supplied location when truthy, else run the
`get_location` loop. -/
def resolve_location (db : DB) (pre_loc : Option String) (fuel : Nat)
    (inputs : List String) : Option (String × DB × List String × List Prompt) :=
  match opt_truthy pre_loc with
  | some l => some (l, db, inputs, [])
  | none => get_location db fuel inputs

/-- Lines 223-228: use the pre-supplied villager id when truthy, else run the
`get_villager_id` loop. -/
def resolve_villager (db : DB) (pre_v_id : Option String) (loc : String) (fuel : Nat)
    (inputs : List String) : Option (String × DB × List String × List Prompt) :=
  match opt_truthy pre_v_id with
  | some v => some (v, db, inputs, [])
  | none => get_villager_id db loc fuel inputs

/-- The SQL `SELECT COUNT(*) FROM librarian_trades WHERE villager_id = ?`. -/
def trade_count (db : DB) (v_id : String) : Nat :=
  (db.librarian_trades.filter (fun r => r.villager_id == v_id)).length

/-- Lines 241-245: when `max_level` is 1 the level is set to 1 with no
prompt, otherwise the `get_level` loop runs. -/
def resolve_level (max_lvl : Int) (inputs : List String) :
    Option (Int × List String × List Prompt) :=
  if max_lvl = 1 then some (1, inputs, [])
  else get_level max_lvl inputs

/-- The duplicate query of lines 250-253: an existing row with identical
villager id, enchantment, level and cost. -/
def has_duplicate (db : DB) (v_id ench : String) (level cost : Int) : Bool :=
  db.librarian_trades.any (fun r =>
    r.villager_id == v_id && r.enchantment == ench &&
    r.enchantment_level == level && r.cost_emeralds == cost)

/-- The INSERT of lines 270-273: append one row to `librarian_trades`. -/
def insert_trade (db : DB) (v_id ench : String) (level cost : Int) : DB :=
  { db with librarian_trades := db.librarian_trades ++ [⟨v_id, ench, level, cost⟩] }

/-- Result of one entry attempt: the returned `(loc, v_id, status)` triple,
the database state at return, the unread inputs, and the prompts issued. -/
structure AttemptResult where
  loc : String
  v_id : String
  status : Status
  db : DB
  rest : List String
  trace : List Prompt
deriving DecidableEq, Repr

/-- Lines 249-276: the duplicate guard and commit. If an identical trade
exists, an override confirmation is required; declining returns the
`cancelled` status with no insert, accepting (or no duplicate) inserts the
row and returns `success`. -/
def duplicate_guard (db : DB) (loc v_id ench : String) (level cost : Int)
    (inputs : List String) : Option AttemptResult :=
  if has_duplicate db v_id ench level cost then
    match confirmLoop Prompt.duplicateConfirm inputs with
    | none => none
    | some (false, rest, t) => some ⟨loc, v_id, Status.cancelled, db, rest, t⟩
    | some (true, rest, t) =>
      some ⟨loc, v_id, Status.success, insert_trade db v_id ench level cost, rest, t⟩
  else
    some ⟨loc, v_id, Status.success, insert_trade db v_id ench level cost, inputs, []⟩

/-- The `add_librarian_trade` entry attempt (lines 200-284), composed from
the step functions above. The `error` status of the Python code arises only
from database exceptions, which have no counterpart in this pure model. -/
def add_librarian_trade (db : DB) (pre_loc pre_v_id : Option String) (fuel : Nat)
    (inputs : List String) : Option AttemptResult :=
  match resolve_location db pre_loc fuel inputs with
  | none => none
  | some (loc, db1, in1, t1) =>
    match resolve_villager db1 pre_v_id loc fuel in1 with
    | none => none
    | some (v_id, db2, in2, t2) =>
      if 4 ≤ trade_count db2 v_id then
        some ⟨loc, v_id, Status.full, db2, in2, t1 ++ t2⟩
      else
        match get_enchantment db2 in2 with
        | none => none
        | some (ench, max_lvl, in3, t3) =>
          match resolve_level max_lvl in3 with
          | none => none
          | some (level, in4, t4) =>
            match get_cost in4 with
            | none => none
            | some (cost, in5, t5) =>
              match duplicate_guard db2 loc v_id ench level cost in5 with
              | none => none
              | some res =>
                some { res with trace := t1 ++ t2 ++ t3 ++ t4 ++ t5 ++ res.trace }

/-- Lines 296-302 of `__main__`: how the remembered `(last_loc, last_v_id)`
pair is updated from the `(loc, v_id, status)` triple an attempt returned.
No branch handles the `error` status, so the remembered pair is kept. -/
def update_memory (last_loc last_v_id loc v_id : Option String) (status : Status) :
    Option String × Option String :=
  if status = Status.success ∨ status = Status.cancelled then (loc, v_id)
  else if status = Status.full then (loc, none)
  else (last_loc, last_v_id)

/-- The continuation states of the outer loop of `__main__`. -/
inductive SessState where
  | NEW
  | SAME_VILLAGER
  | SAME_LOCATION
deriving DecidableEq, Repr

/-- Which continuation prompt the outer loop reaches first (lines 307, 326,
347): `if last_v_id:` offers the same villager, else `if last_loc:` offers
the same location, else a fresh entry. -/
def session_state (last_loc last_v_id : Option String) : SessState :=
  match opt_truthy last_v_id with
  | some _ => SessState.SAME_VILLAGER
  | none =>
    match opt_truthy last_loc with
    | some _ => SessState.SAME_LOCATION
    | none => SessState.NEW


/-- Identifying pair of a villager row that the workflow never rewrites. -/
def idJob (w : VillagerRow) : String × String := (w.villager_id, w.job)

/-- The "mending" reference row of the C5 scenario (max_level 1). -/
def exEnch : EnchantmentRow := ⟨"mending", 1, "book"⟩

/-- Fresh database holding only the "mending" reference row. -/
def exDB : DB := ⟨[], [], [exEnch], []⟩

/-- Inputs of the C5 scenario: new location "spawn" at (0,0), new villager
"spa001", enchantment "mending", cost 15. -/
def exInputs : List String := ["spawn", "y", "0", "0", "spa001", "y", "mending", "15"]

/-- Result of the C5 scenario run. -/
def exRes : AttemptResult :=
  ⟨"spawn", "spa001", Status.success,
    ⟨[⟨"spawn", 0, 0⟩], [⟨"spa001", "spawn", "librarian"⟩], [exEnch],
      [⟨"spa001", "mending", 1, 15⟩]⟩,
    [],
    [Prompt.location, Prompt.addLocationConfirm, Prompt.xCoord, Prompt.zCoord,
      Prompt.villagerId, Prompt.addVillagerConfirm, Prompt.enchantment, Prompt.cost]⟩

/-- Database in which villager "spa001" already holds four trades. -/
def exDBfull : DB :=
  ⟨[⟨"spawn", 0, 0⟩], [⟨"spa001", "spawn", "librarian"⟩], [exEnch],
    [⟨"spa001", "mending", 1, 10⟩, ⟨"spa001", "mending", 1, 11⟩,
      ⟨"spa001", "mending", 1, 12⟩, ⟨"spa001", "mending", 1, 13⟩]⟩

/-- Result of the capacity-gate run on `exDBfull` with the pair
pre-resolved. -/
def exResFull : AttemptResult := ⟨"spawn", "spa001", Status.full, exDBfull, [], []⟩

/-- Database with librarian "spa001" registered at "spawn" while the session
is at "nether". -/
def exDBmove : DB :=
  ⟨[⟨"spawn", 0, 0⟩, ⟨"nether", 5, 5⟩], [⟨"spa001", "spawn", "librarian"⟩], [exEnch], []⟩


/-- Database state and result of the declined duplicate-override run. -/
def exResCancel : AttemptResult :=
  ⟨"spawn", "spa001", Status.cancelled, exDBfull, [], [Prompt.duplicateConfirm]⟩

/-- Database with a non-librarian villager "farm01" at "spawn". -/
def exDBfarm : DB :=
  ⟨[⟨"spawn", 0, 0⟩], [⟨"farm01", "spawn", "farmer"⟩], [exEnch], []⟩

/-- State of `exDBfarm` after the resolver created librarian "spa001". -/
def exDBfarm2 : DB :=
  ⟨[⟨"spawn", 0, 0⟩],
    [⟨"farm01", "spawn", "farmer"⟩, ⟨"spa001", "spawn", "librarian"⟩], [exEnch], []⟩

/-! ### Theorems -/

theorem confirmLoop_length (p : Prompt) :
    ∀ (l : List String) (b : Bool) (r : List String) (t : List Prompt),
      confirmLoop p l = some (b, r, t) → r.length < l.length := by
  intro l
  induction l with
  | nil => intro b r t h; simp [confirmLoop] at h
  | cons s rest ih =>
    intro b r t h
    simp only [confirmLoop] at h
    split at h
    · simp only [Option.some.injEq, Prod.mk.injEq] at h
      obtain ⟨-, rfl, -⟩ := h
      exact Nat.lt_succ_self _
    · split at h
      · simp only [Option.some.injEq, Prod.mk.injEq] at h
        obtain ⟨-, rfl, -⟩ := h
        exact Nat.lt_succ_self _
      · cases hc : confirmLoop p rest with
        | none => rw [hc] at h; simp at h
        | some v =>
          rw [hc] at h
          simp only [Option.map_some', Option.some.injEq, Prod.mk.injEq] at h
          obtain ⟨-, rfl, -⟩ := h
          exact Nat.lt_trans (ih v.1 v.2.1 v.2.2 hc) (Nat.lt_succ_self _)

theorem confirmLoop_trace (p : Prompt) :
    ∀ (l : List String) (b : Bool) (r : List String) (t : List Prompt),
      confirmLoop p l = some (b, r, t) → ∀ q ∈ t, q = p := by
  intro l
  induction l with
  | nil => intro b r t h; simp [confirmLoop] at h
  | cons s rest ih =>
    intro b r t h q hq
    simp only [confirmLoop] at h
    split at h
    · simp only [Option.some.injEq, Prod.mk.injEq] at h
      obtain ⟨-, -, rfl⟩ := h
      simpa using hq
    · split at h
      · simp only [Option.some.injEq, Prod.mk.injEq] at h
        obtain ⟨-, -, rfl⟩ := h
        simpa using hq
      · cases hc : confirmLoop p rest with
        | none => rw [hc] at h; simp at h
        | some v =>
          rw [hc] at h
          simp only [Option.map_some', Option.some.injEq, Prod.mk.injEq] at h
          obtain ⟨-, -, rfl⟩ := h
          rcases List.mem_cons.mp hq with rfl | hq2
          · rfl
          · exact ih v.1 v.2.1 v.2.2 hc q hq2

theorem getCoords_trace (l : List String) :
    ∀ (x z : Int) (r : List String) (t : List Prompt),
      getCoords l = some (x, z, r, t) → ∀ q ∈ t, q = Prompt.xCoord ∨ q = Prompt.zCoord := by
  induction l using getCoords.induct with
  | case1 => intro x z r t h; simp [getCoords] at h
  | case2 s rest hp ih =>
    intro x z r t h q hq
    simp only [getCoords, hp] at h
    rw [Option.map_eq_some'] at h
    obtain ⟨v, hv, heq⟩ := h
    simp only [Prod.mk.injEq] at heq
    obtain ⟨-, -, -, rfl⟩ := heq
    rcases List.mem_cons.mp hq with rfl | hq2
    · exact Or.inl rfl
    · exact ih _ _ _ _ hv q hq2
  | case3 s xv hp =>
    intro x z r t h
    simp [getCoords, hp] at h
  | case4 s1 xv hp1 s2 rest hp2 ih =>
    intro x z r t h q hq
    simp only [getCoords, hp1, hp2] at h
    rw [Option.map_eq_some'] at h
    obtain ⟨v, hv, heq⟩ := h
    simp only [Prod.mk.injEq] at heq
    obtain ⟨-, -, -, rfl⟩ := heq
    rcases List.mem_cons.mp hq with rfl | hq2
    · exact Or.inl rfl
    · rcases List.mem_cons.mp hq2 with rfl | hq3
      · exact Or.inr rfl
      · exact ih _ _ _ _ hv q hq3
  | case5 s1 xv hp1 s2 rest zv hp2 =>
    intro x z r t h q hq
    simp only [getCoords, hp1, hp2, Option.some.injEq, Prod.mk.injEq] at h
    obtain ⟨-, -, -, rfl⟩ := h
    rcases List.mem_cons.mp hq with rfl | hq2
    · exact Or.inl rfl
    · rcases List.mem_cons.mp hq2 with rfl | hq3
      · exact Or.inr rfl
      · simp at hq3

/-- Inside one entry attempt, `get_location` can change only the `locations`
table, and all its prompts belong to the location-resolution family. -/
theorem get_location_shape (db : DB) (fuel : Nat) (inputs : List String) :
    ∀ (loc : String) (db' : DB) (rest : List String) (t : List Prompt),
      get_location db fuel inputs = some (loc, db', rest, t) →
      db'.villagers = db.villagers ∧ db'.enchantments = db.enchantments ∧
        db'.librarian_trades = db.librarian_trades ∧
        ∀ q ∈ t, q = Prompt.location ∨ q = Prompt.addLocationConfirm ∨
          q = Prompt.xCoord ∨ q = Prompt.zCoord := by
  induction fuel, inputs using get_location.induct db with
  | case1 l => intro loc db' rest t h; simp [get_location] at h
  | case2 n => intro loc db' rest t h; simp [get_location] at h
  | case3 fuel s rest0 hemp ih =>
    intro loc db' rest t h
    simp only [get_location] at h
    rw [if_pos hemp] at h
    rw [Option.map_eq_some'] at h
    obtain ⟨v, hv, heq⟩ := h
    simp only [Prod.mk.injEq] at heq
    obtain ⟨-, rfl, -, rfl⟩ := heq
    obtain ⟨h1, h2, h3, h4⟩ := ih _ _ _ _ hv
    refine ⟨h1, h2, h3, fun q hq => ?_⟩
    rcases List.mem_cons.mp hq with rfl | hq2
    · exact Or.inl rfl
    · exact h4 q hq2
  | case4 fuel s rest0 hemp hex =>
    intro loc db' rest t h
    simp only [get_location] at h
    rw [if_neg hemp, if_pos hex] at h
    simp only [Option.some.injEq, Prod.mk.injEq] at h
    obtain ⟨-, rfl, -, rfl⟩ := h
    refine ⟨rfl, rfl, rfl, fun q hq => ?_⟩
    simp only [List.mem_singleton] at hq
    exact Or.inl hq
  | case5 fuel s rest0 hemp hex hc =>
    intro loc db' rest t h
    simp only [get_location] at h
    rw [if_neg hemp, if_neg hex] at h
    simp only [hc] at h
    exact absurd h (by simp)
  | case6 fuel s rest0 hemp hex rest2 t2 hc =>
    intro loc db' rest t h
    simp only [get_location] at h
    rw [if_neg hemp, if_neg hex] at h
    simp only [hc] at h
    rw [Option.map_eq_some'] at h
    obtain ⟨v, hv, heq⟩ := h
    simp only [Prod.mk.injEq] at heq
    obtain ⟨-, rfl, -, rfl⟩ := heq
    refine ⟨rfl, rfl, rfl, fun q hq => ?_⟩
    rcases List.mem_cons.mp hq with rfl | hq2
    · exact Or.inl rfl
    · rcases List.mem_append.mp hq2 with hq3 | hq3
      · exact Or.inr (Or.inl (confirmLoop_trace _ _ _ _ _ hc q hq3))
      · rcases getCoords_trace _ _ _ _ _ hv q hq3 with h5 | h5
        · exact Or.inr (Or.inr (Or.inl h5))
        · exact Or.inr (Or.inr (Or.inr h5))
  | case7 fuel s rest0 hemp hex rest2 t2 hc ih =>
    intro loc db' rest t h
    simp only [get_location] at h
    rw [if_neg hemp, if_neg hex] at h
    simp only [hc] at h
    rw [Option.map_eq_some'] at h
    obtain ⟨v, hv, heq⟩ := h
    simp only [Prod.mk.injEq] at heq
    obtain ⟨-, rfl, -, rfl⟩ := heq
    obtain ⟨h1, h2, h3, h4⟩ := ih _ _ _ _ hv
    refine ⟨h1, h2, h3, fun q hq => ?_⟩
    rcases List.mem_cons.mp hq with rfl | hq2
    · exact Or.inl rfl
    · rcases List.mem_append.mp hq2 with hq3 | hq3
      · exact Or.inr (Or.inl (confirmLoop_trace _ _ _ _ _ hc q hq3))
      · exact h4 q hq3

theorem idJob_update (v c : String) (w : VillagerRow) :
    idJob (updateVillagerLoc v c w) = idJob w := by
  simp only [updateVillagerLoc, idJob]
  split <;> rfl

theorem map_idJob_update (v c : String) (l : List VillagerRow) :
    (l.map (updateVillagerLoc v c)).map idJob = l.map idJob := by
  rw [List.map_map]
  exact List.map_congr_left fun w _ => idJob_update v c w

theorem comp_pred_update (v c x : String) :
    ((fun y => y.villager_id == x) ∘ updateVillagerLoc v c) =
      fun y : VillagerRow => y.villager_id == x := by
  funext y
  by_cases hb : (y.villager_id == v) = true <;>
    simp [updateVillagerLoc, Function.comp, hb]

/-- Inside one entry attempt, `get_villager_id` can change only the
`villagers` table; all its prompts belong to the villager-resolution family;
the `(villager_id, job)` pairs of existing rows are preserved, with at most
one new librarian row appended; the returned id is never one whose first
matching row has a non-librarian job; and any row whose first match has a
non-librarian job is still found unchanged afterwards. -/
theorem get_villager_id_shape (db : DB) (cur : String) (fuel : Nat) (inputs : List String) :
    ∀ (v : String) (db' : DB) (rest : List String) (t : List Prompt),
      get_villager_id db cur fuel inputs = some (v, db', rest, t) →
      db'.locations = db.locations ∧ db'.enchantments = db.enchantments ∧
        db'.librarian_trades = db.librarian_trades ∧
        (∀ q ∈ t, q = Prompt.villagerId ∨ q = Prompt.moveConfirm ∨
          q = Prompt.addVillagerConfirm) ∧
        (db'.villagers.map idJob = db.villagers.map idJob ∨
          db'.villagers.map idJob = db.villagers.map idJob ++ [(v, "librarian")]) ∧
        (∀ w, db.villagers.find? (fun y => y.villager_id == v) = some w →
          w.job = "librarian") ∧
        (∀ x w, db.villagers.find? (fun y => y.villager_id == x) = some w →
          w.job ≠ "librarian" →
          db'.villagers.find? (fun y => y.villager_id == x) = some w) := by
  induction fuel, inputs using get_villager_id.induct db cur with
  | case1 l => intro v db' rest t h; simp [get_villager_id] at h
  | case2 n => intro v db' rest t h; simp [get_villager_id] at h
  | case3 fuel s rest0 hemp ih =>
    intro v db' rest t h
    simp only [get_villager_id] at h
    rw [if_pos hemp] at h
    rw [Option.map_eq_some'] at h
    obtain ⟨r, hr, heq⟩ := h
    simp only [Prod.mk.injEq] at heq
    obtain ⟨rfl, rfl, -, rfl⟩ := heq
    obtain ⟨h1, h2, h3, h4, h5, h6, h7⟩ := ih _ _ _ _ hr
    refine ⟨h1, h2, h3, fun q hq => ?_, h5, h6, h7⟩
    rcases List.mem_cons.mp hq with rfl | hq2
    · exact Or.inl rfl
    · exact h4 q hq2
  | case4 fuel s rest0 hemp w hfind hjob ih =>
    intro v db' rest t h
    simp only [get_villager_id] at h
    rw [if_neg hemp] at h
    simp only [hfind] at h
    rw [if_pos hjob] at h
    rw [Option.map_eq_some'] at h
    obtain ⟨r, hr, heq⟩ := h
    simp only [Prod.mk.injEq] at heq
    obtain ⟨rfl, rfl, -, rfl⟩ := heq
    obtain ⟨h1, h2, h3, h4, h5, h6, h7⟩ := ih _ _ _ _ hr
    refine ⟨h1, h2, h3, fun q hq => ?_, h5, h6, h7⟩
    rcases List.mem_cons.mp hq with rfl | hq2
    · exact Or.inl rfl
    · exact h4 q hq2
  | case5 fuel s rest0 hemp w hfind hnjob hlocne hc =>
    intro v db' rest t h
    simp only [get_villager_id] at h
    rw [if_neg hemp] at h
    simp only [hfind] at h
    rw [if_neg hnjob, if_pos hlocne] at h
    simp only [hc] at h
    exact absurd h (by simp)
  | case6 fuel s rest0 hemp w hfind hnjob hlocne rest2 t2 hc =>
    intro v db' rest t h
    simp only [get_villager_id] at h
    rw [if_neg hemp] at h
    simp only [hfind] at h
    rw [if_neg hnjob, if_pos hlocne] at h
    simp only [hc, Option.some.injEq, Prod.mk.injEq] at h
    obtain ⟨rfl, rfl, -, rfl⟩ := h
    have hlib : w.job = "librarian" := not_not.mp hnjob
    refine ⟨rfl, rfl, rfl, fun q hq => ?_, Or.inl (map_idJob_update _ _ _),
      fun w2 hw2 => ?_, fun x w2 hx hnlib => ?_⟩
    · rcases List.mem_cons.mp hq with rfl | hq2
      · exact Or.inl rfl
      · exact Or.inr (Or.inl (confirmLoop_trace _ _ _ _ _ hc q hq2))
    · rw [hfind] at hw2
      cases hw2
      exact hlib
    · have hxne : x ≠ norm s := by
        intro hxeq
        rw [hxeq, hfind] at hx
        cases hx
        exact hnlib hlib
      show (db.villagers.map (updateVillagerLoc (norm s) cur)).find?
          (fun y => y.villager_id == x) = some w2
      rw [List.find?_map, comp_pred_update, hx]
      have hidx : w2.villager_id = x := by
        have := List.find?_some hx
        simpa [beq_iff_eq] using this
      simp only [Option.map_some', Option.some.injEq]
      simp [updateVillagerLoc, hidx, hxne]
  | case7 fuel s rest0 hemp w hfind hnjob hlocne rest2 t2 hc ih =>
    intro v db' rest t h
    simp only [get_villager_id] at h
    rw [if_neg hemp] at h
    simp only [hfind] at h
    rw [if_neg hnjob, if_pos hlocne] at h
    simp only [hc] at h
    rw [Option.map_eq_some'] at h
    obtain ⟨r, hr, heq⟩ := h
    simp only [Prod.mk.injEq] at heq
    obtain ⟨rfl, rfl, -, rfl⟩ := heq
    obtain ⟨h1, h2, h3, h4, h5, h6, h7⟩ := ih _ _ _ _ hr
    refine ⟨h1, h2, h3, fun q hq => ?_, h5, h6, h7⟩
    rcases List.mem_cons.mp hq with rfl | hq2
    · exact Or.inl rfl
    · rcases List.mem_append.mp hq2 with hq3 | hq3
      · exact Or.inr (Or.inl (confirmLoop_trace _ _ _ _ _ hc q hq3))
      · exact h4 q hq3
  | case8 fuel s rest0 hemp w hfind hnjob hlocsame =>
    intro v db' rest t h
    simp only [get_villager_id] at h
    rw [if_neg hemp] at h
    simp only [hfind] at h
    rw [if_neg hnjob, if_neg hlocsame] at h
    simp only [Option.some.injEq, Prod.mk.injEq] at h
    obtain ⟨rfl, rfl, -, rfl⟩ := h
    have hlib : w.job = "librarian" := not_not.mp hnjob
    refine ⟨rfl, rfl, rfl, fun q hq => ?_, Or.inl rfl, fun w2 hw2 => ?_,
      fun x w2 hx _ => hx⟩
    · simp only [List.mem_singleton] at hq
      exact Or.inl hq
    · rw [hfind] at hw2
      cases hw2
      exact hlib
  | case9 fuel s rest0 hemp hfind hc =>
    intro v db' rest t h
    simp only [get_villager_id] at h
    rw [if_neg hemp] at h
    simp only [hfind] at h
    simp only [hc] at h
    exact absurd h (by simp)
  | case10 fuel s rest0 hemp hfind rest2 t2 hc =>
    intro v db' rest t h
    simp only [get_villager_id] at h
    rw [if_neg hemp] at h
    simp only [hfind] at h
    simp only [hc, Option.some.injEq, Prod.mk.injEq] at h
    obtain ⟨rfl, rfl, -, rfl⟩ := h
    refine ⟨rfl, rfl, rfl, fun q hq => ?_, Or.inr (by simp [idJob]),
      fun w2 hw2 => ?_, fun x w2 hx hnlib => ?_⟩
    · rcases List.mem_cons.mp hq with rfl | hq2
      · exact Or.inl rfl
      · exact Or.inr (Or.inr (confirmLoop_trace _ _ _ _ _ hc q hq2))
    · rw [hfind] at hw2
      cases hw2
    · show (db.villagers ++ [(⟨norm s, cur, "librarian"⟩ : VillagerRow)]).find?
          (fun y => y.villager_id == x) = some w2
      rw [List.find?_append, hx]
      rfl
  | case11 fuel s rest0 hemp hfind rest2 t2 hc ih =>
    intro v db' rest t h
    simp only [get_villager_id] at h
    rw [if_neg hemp] at h
    simp only [hfind] at h
    simp only [hc] at h
    rw [Option.map_eq_some'] at h
    obtain ⟨r, hr, heq⟩ := h
    simp only [Prod.mk.injEq] at heq
    obtain ⟨rfl, rfl, -, rfl⟩ := heq
    obtain ⟨h1, h2, h3, h4, h5, h6, h7⟩ := ih _ _ _ _ hr
    refine ⟨h1, h2, h3, fun q hq => ?_, h5, h6, h7⟩
    rcases List.mem_cons.mp hq with rfl | hq2
    · exact Or.inl rfl
    · rcases List.mem_append.mp hq2 with hq3 | hq3
      · exact Or.inr (Or.inr (confirmLoop_trace _ _ _ _ _ hc q hq3))
      · exact h4 q hq3

/-- The name returned by `get_enchantment` is in the `enchantments` table
(first matching row), the returned bound is that row's `max_level`, and only
the enchantment prompt is issued. -/
theorem get_enchantment_ok (db : DB) (inputs : List String) :
    ∀ (ench : String) (mx : Int) (rest : List String) (t : List Prompt),
      get_enchantment db inputs = some (ench, mx, rest, t) →
      (∃ e, db.enchantments.find? (fun y => y.enchantment == ench) = some e ∧
        e.max_level = mx) ∧ ∀ q ∈ t, q = Prompt.enchantment := by
  induction inputs with
  | nil => intro ench mx rest t h; simp [get_enchantment] at h
  | cons s rest0 ih =>
    intro ench mx rest t h
    simp only [get_enchantment] at h
    split at h
    · rw [Option.map_eq_some'] at h
      obtain ⟨r, hr, heq⟩ := h
      simp only [Prod.mk.injEq] at heq
      obtain ⟨rfl, rfl, -, rfl⟩ := heq
      obtain ⟨h1, h2⟩ := ih _ _ _ _ hr
      refine ⟨h1, fun q hq => ?_⟩
      rcases List.mem_cons.mp hq with rfl | hq2
      · rfl
      · exact h2 q hq2
    · cases hfind : db.enchantments.find? (fun e => e.enchantment == norm s) with
      | some e =>
        rw [hfind] at h
        simp only [Option.some.injEq, Prod.mk.injEq] at h
        obtain ⟨rfl, rfl, -, rfl⟩ := h
        refine ⟨⟨e, hfind, rfl⟩, fun q hq => ?_⟩
        simpa using hq
      | none =>
        rw [hfind] at h
        rw [Option.map_eq_some'] at h
        obtain ⟨r, hr, heq⟩ := h
        simp only [Prod.mk.injEq] at heq
        obtain ⟨rfl, rfl, -, rfl⟩ := heq
        obtain ⟨h1, h2⟩ := ih _ _ _ _ hr
        refine ⟨h1, fun q hq => ?_⟩
        rcases List.mem_cons.mp hq with rfl | hq2
        · rfl
        · exact h2 q hq2

theorem get_level_bounds (mx : Int) (inputs : List String) :
    ∀ (lvl : Int) (rest : List String) (t : List Prompt),
      get_level mx inputs = some (lvl, rest, t) →
      (1 ≤ lvl ∧ lvl ≤ mx) ∧ ∀ q ∈ t, q = Prompt.level := by
  induction inputs with
  | nil => intro lvl rest t h; simp [get_level] at h
  | cons s rest0 ih =>
    intro lvl rest t h
    simp only [get_level] at h
    cases hp : parseInt s with
    | some n =>
      rw [hp] at h
      simp only at h
      split at h
      · simp only [Option.some.injEq, Prod.mk.injEq] at h
        obtain ⟨rfl, -, rfl⟩ := h
        refine ⟨by assumption, fun q hq => ?_⟩
        simpa using hq
      · rw [Option.map_eq_some'] at h
        obtain ⟨r, hr, heq⟩ := h
        simp only [Prod.mk.injEq] at heq
        obtain ⟨rfl, -, rfl⟩ := heq
        obtain ⟨h1, h2⟩ := ih _ _ _ hr
        refine ⟨h1, fun q hq => ?_⟩
        rcases List.mem_cons.mp hq with rfl | hq2
        · rfl
        · exact h2 q hq2
    | none =>
      rw [hp] at h
      rw [Option.map_eq_some'] at h
      obtain ⟨r, hr, heq⟩ := h
      simp only [Prod.mk.injEq] at heq
      obtain ⟨rfl, -, rfl⟩ := heq
      obtain ⟨h1, h2⟩ := ih _ _ _ hr
      refine ⟨h1, fun q hq => ?_⟩
      rcases List.mem_cons.mp hq with rfl | hq2
      · rfl
      · exact h2 q hq2

theorem get_cost_bounds (inputs : List String) :
    ∀ (c : Int) (rest : List String) (t : List Prompt),
      get_cost inputs = some (c, rest, t) →
      (1 ≤ c ∧ c ≤ 64) ∧ ∀ q ∈ t, q = Prompt.cost := by
  induction inputs with
  | nil => intro c rest t h; simp [get_cost] at h
  | cons s rest0 ih =>
    intro c rest t h
    simp only [get_cost] at h
    cases hp : parseInt s with
    | some n =>
      rw [hp] at h
      simp only at h
      split at h
      · simp only [Option.some.injEq, Prod.mk.injEq] at h
        obtain ⟨rfl, -, rfl⟩ := h
        refine ⟨by assumption, fun q hq => ?_⟩
        simpa using hq
      · rw [Option.map_eq_some'] at h
        obtain ⟨r, hr, heq⟩ := h
        simp only [Prod.mk.injEq] at heq
        obtain ⟨rfl, -, rfl⟩ := heq
        obtain ⟨h1, h2⟩ := ih _ _ _ hr
        refine ⟨h1, fun q hq => ?_⟩
        rcases List.mem_cons.mp hq with rfl | hq2
        · rfl
        · exact h2 q hq2
    | none =>
      rw [hp] at h
      rw [Option.map_eq_some'] at h
      obtain ⟨r, hr, heq⟩ := h
      simp only [Prod.mk.injEq] at heq
      obtain ⟨rfl, -, rfl⟩ := heq
      obtain ⟨h1, h2⟩ := ih _ _ _ hr
      refine ⟨h1, fun q hq => ?_⟩
      rcases List.mem_cons.mp hq with rfl | hq2
      · rfl
      · exact h2 q hq2

theorem resolve_level_bounds (mx : Int) (inputs : List String) (lvl : Int)
    (rest : List String) (t : List Prompt)
    (h : resolve_level mx inputs = some (lvl, rest, t)) :
    (1 ≤ lvl ∧ lvl ≤ mx) ∧ ∀ q ∈ t, q = Prompt.level := by
  unfold resolve_level at h
  split at h
  · simp only [Option.some.injEq, Prod.mk.injEq] at h
    obtain ⟨rfl, -, rfl⟩ := h
    refine ⟨⟨le_refl 1, by omega⟩, fun q hq => ?_⟩
    simp at hq
  · exact get_level_bounds mx inputs lvl rest t h

theorem resolve_location_shape (db : DB) (pre : Option String) (fuel : Nat)
    (inputs : List String) (loc : String) (db' : DB) (rest : List String)
    (t : List Prompt)
    (h : resolve_location db pre fuel inputs = some (loc, db', rest, t)) :
    db'.villagers = db.villagers ∧ db'.enchantments = db.enchantments ∧
      db'.librarian_trades = db.librarian_trades ∧
      ∀ q ∈ t, q = Prompt.location ∨ q = Prompt.addLocationConfirm ∨
        q = Prompt.xCoord ∨ q = Prompt.zCoord := by
  unfold resolve_location at h
  split at h
  · simp only [Option.some.injEq, Prod.mk.injEq] at h
    obtain ⟨-, rfl, -, rfl⟩ := h
    exact ⟨rfl, rfl, rfl, fun q hq => by simp at hq⟩
  · exact get_location_shape db fuel inputs loc db' rest t h

theorem resolve_villager_shape (db : DB) (pre : Option String) (cur : String)
    (fuel : Nat) (inputs : List String) (v : String) (db' : DB)
    (rest : List String) (t : List Prompt)
    (h : resolve_villager db pre cur fuel inputs = some (v, db', rest, t)) :
    db'.locations = db.locations ∧ db'.enchantments = db.enchantments ∧
      db'.librarian_trades = db.librarian_trades ∧
      (∀ q ∈ t, q = Prompt.villagerId ∨ q = Prompt.moveConfirm ∨
        q = Prompt.addVillagerConfirm) ∧
      (db'.villagers.map idJob = db.villagers.map idJob ∨
        db'.villagers.map idJob = db.villagers.map idJob ++ [(v, "librarian")]) := by
  unfold resolve_villager at h
  split at h
  · simp only [Option.some.injEq, Prod.mk.injEq] at h
    obtain ⟨-, rfl, -, rfl⟩ := h
    exact ⟨rfl, rfl, rfl, fun q hq => by simp at hq, Or.inl rfl⟩
  · obtain ⟨h1, h2, h3, h4, h5, -, -⟩ :=
      get_villager_id_shape db cur fuel inputs v db' rest t h
    exact ⟨h1, h2, h3, h4, h5⟩

theorem duplicate_guard_shape (db : DB) (loc v ench : String) (lvl cst : Int)
    (inputs : List String) (res : AttemptResult)
    (h : duplicate_guard db loc v ench lvl cst inputs = some res) :
    res.loc = loc ∧ res.v_id = v ∧
      (∀ q ∈ res.trace, q = Prompt.duplicateConfirm) ∧
      ((res.status = Status.success ∧ res.db = insert_trade db v ench lvl cst) ∨
        (res.status = Status.cancelled ∧ res.db = db ∧
          has_duplicate db v ench lvl cst = true)) := by
  unfold duplicate_guard at h
  split at h
  · cases hc : confirmLoop Prompt.duplicateConfirm inputs with
    | none => rw [hc] at h; exact absurd h (by simp)
    | some r =>
      obtain ⟨b, rest2, t2⟩ := r
      rw [hc] at h
      cases b
      · simp only [Option.some.injEq] at h
        subst h
        refine ⟨rfl, rfl, fun q hq => ?_, Or.inr ⟨rfl, rfl, by assumption⟩⟩
        exact confirmLoop_trace _ _ _ _ _ hc q hq
      · simp only [Option.some.injEq] at h
        subst h
        refine ⟨rfl, rfl, fun q hq => ?_, Or.inl ⟨rfl, rfl⟩⟩
        exact confirmLoop_trace _ _ _ _ _ hc q hq
  · simp only [Option.some.injEq] at h
    subst h
    exact ⟨rfl, rfl, fun q hq => by simp at hq, Or.inl ⟨rfl, rfl⟩⟩

/-- Decomposition of a completed entry attempt into its stages. -/
theorem add_shape (db : DB) (pre_loc pre_v_id : Option String) (fuel : Nat)
    (inputs : List String) (res : AttemptResult)
    (h : add_librarian_trade db pre_loc pre_v_id fuel inputs = some res) :
    ∃ loc db1 in1 t1 v db2 in2 t2,
      resolve_location db pre_loc fuel inputs = some (loc, db1, in1, t1) ∧
      resolve_villager db1 pre_v_id loc fuel in1 = some (v, db2, in2, t2) ∧
      ((4 ≤ trade_count db2 v ∧
          res = ⟨loc, v, Status.full, db2, in2, t1 ++ t2⟩) ∨
        (trade_count db2 v < 4 ∧
          ∃ ench mx in3 t3 lvl in4 t4 cst in5 t5 res6,
            get_enchantment db2 in2 = some (ench, mx, in3, t3) ∧
            resolve_level mx in3 = some (lvl, in4, t4) ∧
            get_cost in4 = some (cst, in5, t5) ∧
            duplicate_guard db2 loc v ench lvl cst in5 = some res6 ∧
            res = { res6 with trace := t1 ++ t2 ++ t3 ++ t4 ++ t5 ++ res6.trace })) := by
  unfold add_librarian_trade at h
  cases h1 : resolve_location db pre_loc fuel inputs with
  | none => simp only [h1] at h; exact absurd h (by simp)
  | some r1 =>
    obtain ⟨loc, db1, in1, t1⟩ := r1
    simp only [h1] at h
    cases h2 : resolve_villager db1 pre_v_id loc fuel in1 with
    | none => simp only [h2] at h; exact absurd h (by simp)
    | some r2 =>
      obtain ⟨v, db2, in2, t2⟩ := r2
      simp only [h2] at h
      refine ⟨loc, db1, in1, t1, v, db2, in2, t2, rfl, h2, ?_⟩
      split at h
      · simp only [Option.some.injEq] at h
        exact Or.inl ⟨by assumption, h.symm⟩
      · refine Or.inr ⟨by omega, ?_⟩
        cases h3 : get_enchantment db2 in2 with
        | none => simp only [h3] at h; exact absurd h (by simp)
        | some r3 =>
          obtain ⟨ench, mx, in3, t3⟩ := r3
          simp only [h3] at h
          cases h4 : resolve_level mx in3 with
          | none => simp only [h4] at h; exact absurd h (by simp)
          | some r4 =>
            obtain ⟨lvl, in4, t4⟩ := r4
            simp only [h4] at h
            cases h5 : get_cost in4 with
            | none => simp only [h5] at h; exact absurd h (by simp)
            | some r5 =>
              obtain ⟨cst, in5, t5⟩ := r5
              simp only [h5] at h
              cases h6 : duplicate_guard db2 loc v ench lvl cst in5 with
              | none => simp only [h6] at h; exact absurd h (by simp)
              | some res6 =>
                simp only [h6, Option.some.injEq] at h
                exact ⟨ench, mx, in3, t3, lvl, in4, t4, cst, in5, t5, res6,
                  rfl, h4, h5, h6, h.symm⟩


/-- C4 counterexample: after an attempt returns the error status with the
remembered pair (spawn, spa001), the memory-update step of the outer loop
leaves the remembered context in place (no branch of lines 297-302 handles
the error status), so the state machine is not forced to NEW as the claim
states. -/
theorem c4_counterexample :
    update_memory (some "spawn") (some "spa001") none none Status.error =
      (some "spawn", some "spa001") ∧
    update_memory (some "spawn") (some "spa001") none none Status.error ≠
      ((none : Option String), (none : Option String)) ∧
    session_state (update_memory (some "spawn") (some "spa001") none none Status.error).1
        (update_memory (some "spawn") (some "spa001") none none Status.error).2 ≠
      SessState.NEW := by
  decide

/-- C4, amended: when an entry attempt returns the error status, the
memory-update step leaves the remembered session context unchanged, so the
continuation state machine stays in whatever state the remembered context
already encodes (it is in state NEW only if the context was already empty). -/
theorem c4_error_keeps_memory (last_loc last_v_id loc v_id : Option String) :
    update_memory last_loc last_v_id loc v_id Status.error = (last_loc, last_v_id) ∧
      session_state (update_memory last_loc last_v_id loc v_id Status.error).1
          (update_memory last_loc last_v_id loc v_id Status.error).2 =
        session_state last_loc last_v_id := by
  constructor <;> simp [update_memory]

/-- C5: an enchantment whose max_level is 1 has its level set to 1 with no
level prompt and no input consumed; in the concrete scenario (new location
"spawn" at (0,0), new villager "spa001", enchantment "mending" with
max_level 1, cost 15) the attempt succeeds, inserts the trade row
(spa001, mending, 1, 15), and the trace contains no level prompt. -/
theorem c5_auto_level :
    (∀ inputs : List String, resolve_level 1 inputs = some (1, inputs, [])) ∧
    add_librarian_trade exDB none none 9 exInputs = some exRes ∧
    exRes.db.librarian_trades = [⟨"spa001", "mending", 1, 15⟩] ∧
    Prompt.level ∉ exRes.trace := by
  exact ⟨fun inputs => by simp [resolve_level], by decide, by decide, by decide⟩

/-- C8: after an attempt returning success or cancelled the outer loop
remembers the (location, villager) pair and is in state SAME_VILLAGER; after
full it remembers the location only, clears the villager, and is in state
SAME_LOCATION. -/
theorem c8_continuation (last_loc last_v_id : Option String) (loc v : String)
    (hl : loc ≠ "") (hv : v ≠ "") :
    (update_memory last_loc last_v_id (some loc) (some v) Status.success =
        (some loc, some v) ∧
      session_state (some loc) (some v) = SessState.SAME_VILLAGER) ∧
    (update_memory last_loc last_v_id (some loc) (some v) Status.cancelled =
        (some loc, some v) ∧
      session_state (some loc) (some v) = SessState.SAME_VILLAGER) ∧
    (update_memory last_loc last_v_id (some loc) (some v) Status.full =
        (some loc, none) ∧
      session_state (some loc) none = SessState.SAME_LOCATION) := by
  refine ⟨⟨by simp [update_memory], ?_⟩, ⟨by simp [update_memory], ?_⟩,
    ⟨by simp [update_memory], ?_⟩⟩
  · simp [session_state, opt_truthy, hv]
  · simp [session_state, opt_truthy, hv]
  · simp [session_state, opt_truthy, hl]

theorem c8_continuation_witness :
    (update_memory none none (some "spawn") (some "spa001") Status.success =
        (some "spawn", some "spa001") ∧
      session_state (some "spawn") (some "spa001") = SessState.SAME_VILLAGER) ∧
    (update_memory none none (some "spawn") (some "spa001") Status.cancelled =
        (some "spawn", some "spa001") ∧
      session_state (some "spawn") (some "spa001") = SessState.SAME_VILLAGER) ∧
    (update_memory none none (some "spawn") (some "spa001") Status.full =
        (some "spawn", none) ∧
      session_state (some "spawn") none = SessState.SAME_LOCATION) :=
  c8_continuation none none "spawn" "spa001" (by decide) (by decide)

/-- C1: in any completed entry attempt over a database whose enchantments
all have a positive max_level, either no trade row is inserted, or exactly
one row is appended whose cost lies in [1, 64] and whose level lies in
[1, max_level] of the referenced enchantment row as stored at the time of
entry. -/
theorem c1_trade_bounds (db : DB) (pre_loc pre_v_id : Option String) (fuel : Nat)
    (inputs : List String) (res : AttemptResult)
    (hpos : ∀ e ∈ db.enchantments, 1 ≤ e.max_level)
    (h : add_librarian_trade db pre_loc pre_v_id fuel inputs = some res) :
    res.db.librarian_trades = db.librarian_trades ∨
      ∃ r, res.db.librarian_trades = db.librarian_trades ++ [r] ∧
        1 ≤ r.cost_emeralds ∧ r.cost_emeralds ≤ 64 ∧
        ∃ e, db.enchantments.find? (fun y => y.enchantment == r.enchantment) = some e ∧
          1 ≤ r.enchantment_level ∧ r.enchantment_level ≤ e.max_level := by
  obtain ⟨loc, db1, in1, t1, v, db2, in2, t2, h1, h2, hbr⟩ :=
    add_shape db pre_loc pre_v_id fuel inputs res h
  obtain ⟨-, he1, ht1, -⟩ := resolve_location_shape _ _ _ _ _ _ _ _ h1
  obtain ⟨-, he2, ht2, -, -⟩ := resolve_villager_shape _ _ _ _ _ _ _ _ _ h2
  rcases hbr with ⟨-, rfl⟩ |
    ⟨-, ench, mx, in3, t3, lvl, in4, t4, cst, in5, t5, res6, h3, h4, h5, h6, hres⟩
  · left
    show db2.librarian_trades = db.librarian_trades
    rw [ht2, ht1]
  · obtain ⟨⟨e, hfind, hmx⟩, -⟩ := get_enchantment_ok db2 in2 ench mx in3 t3 h3
    obtain ⟨⟨hlvl1, hlvl2⟩, -⟩ := resolve_level_bounds mx in3 lvl in4 t4 h4
    obtain ⟨⟨hc1, hc2⟩, -⟩ := get_cost_bounds in4 cst in5 t5 h5
    obtain ⟨-, -, -, hbr6⟩ := duplicate_guard_shape db2 loc v ench lvl cst in5 res6 h6
    have hdbeq : res.db = res6.db := by rw [hres]
    rcases hbr6 with ⟨-, hdb⟩ | ⟨-, hdb, -⟩
    · right
      refine ⟨⟨v, ench, lvl, cst⟩, ?_, hc1, hc2, e, ?_, hlvl1, hmx ▸ hlvl2⟩
      · rw [hdbeq, hdb]
        show db2.librarian_trades ++ _ = _
        rw [ht2, ht1]
      · rw [he2, he1] at hfind
        exact hfind
    · left
      rw [hdbeq, hdb, ht2, ht1]

theorem c1_trade_bounds_witness :
    (∀ e ∈ exDB.enchantments, 1 ≤ e.max_level) ∧
    (exRes.db.librarian_trades = exDB.librarian_trades ∨
      ∃ r, exRes.db.librarian_trades = exDB.librarian_trades ++ [r] ∧
        1 ≤ r.cost_emeralds ∧ r.cost_emeralds ≤ 64 ∧
        ∃ e, exDB.enchantments.find? (fun y => y.enchantment == r.enchantment) = some e ∧
          1 ≤ r.enchantment_level ∧ r.enchantment_level ≤ e.max_level) :=
  ⟨by decide,
    c1_trade_bounds exDB none none 9 exInputs exRes (by decide) (by decide)⟩

/-- C2: if the resolved villager of a completed attempt already holds at
least four trades, the attempt returns the full status, no trade row is
inserted, and no enchantment, level, or cost prompt is issued during the
attempt. -/
theorem c2_capacity_gate (db : DB) (pre_loc pre_v_id : Option String) (fuel : Nat)
    (inputs : List String) (res : AttemptResult)
    (h : add_librarian_trade db pre_loc pre_v_id fuel inputs = some res)
    (hfull : 4 ≤ trade_count db res.v_id) :
    res.status = Status.full ∧ res.db.librarian_trades = db.librarian_trades ∧
      Prompt.enchantment ∉ res.trace ∧ Prompt.level ∉ res.trace ∧
      Prompt.cost ∉ res.trace := by
  obtain ⟨loc, db1, in1, t1, v, db2, in2, t2, h1, h2, hbr⟩ :=
    add_shape db pre_loc pre_v_id fuel inputs res h
  obtain ⟨-, -, ht1, htr1⟩ := resolve_location_shape _ _ _ _ _ _ _ _ h1
  obtain ⟨-, -, ht2, htr2, -⟩ := resolve_villager_shape _ _ _ _ _ _ _ _ _ h2
  have hcount : trade_count db2 v = trade_count db v := by
    simp [trade_count, ht2, ht1]
  rcases hbr with ⟨-, rfl⟩ |
    ⟨hlt, ench, mx, in3, t3, lvl, in4, t4, cst, in5, t5, res6, h3, h4, h5, h6, hres⟩
  · refine ⟨rfl, by show db2.librarian_trades = _; rw [ht2, ht1], ?_, ?_, ?_⟩ <;>
      · intro hmem
        rcases List.mem_append.mp hmem with hm | hm
        · rcases htr1 _ hm with h' | h' | h' | h' <;> exact absurd h' (by decide)
        · rcases htr2 _ hm with h' | h' | h' <;> exact absurd h' (by decide)
  · exfalso
    obtain ⟨-, hv6, -, -⟩ := duplicate_guard_shape db2 loc v ench lvl cst in5 res6 h6
    have hvid : res.v_id = v := by rw [hres]; exact hv6
    rw [hvid, ← hcount] at hfull
    omega

theorem c2_capacity_gate_witness :
    (4 ≤ trade_count exDBfull exResFull.v_id) ∧
    (exResFull.status = Status.full ∧
      exResFull.db.librarian_trades = exDBfull.librarian_trades ∧
      Prompt.enchantment ∉ exResFull.trace ∧ Prompt.level ∉ exResFull.trace ∧
      Prompt.cost ∉ exResFull.trace) :=
  ⟨by decide,
    c2_capacity_gate exDBfull (some "spawn") (some "spa001") 1 [] exResFull
      (by decide) (by decide)⟩

/-- C10: a completed entry attempt returns one of the four statuses; it
returns success exactly when one trade row was appended during the attempt,
and on any other status the trades table is unchanged. -/
theorem c10_status_insert (db : DB) (pre_loc pre_v_id : Option String) (fuel : Nat)
    (inputs : List String) (res : AttemptResult)
    (h : add_librarian_trade db pre_loc pre_v_id fuel inputs = some res) :
    (res.status = Status.success ∨ res.status = Status.cancelled ∨
      res.status = Status.full ∨ res.status = Status.error) ∧
    (res.status = Status.success ↔
      ∃ r, res.db.librarian_trades = db.librarian_trades ++ [r]) ∧
    (res.status ≠ Status.success → res.db.librarian_trades = db.librarian_trades) := by
  obtain ⟨loc, db1, in1, t1, v, db2, in2, t2, h1, h2, hbr⟩ :=
    add_shape db pre_loc pre_v_id fuel inputs res h
  obtain ⟨-, -, ht1, -⟩ := resolve_location_shape _ _ _ _ _ _ _ _ h1
  obtain ⟨-, -, ht2, -, -⟩ := resolve_villager_shape _ _ _ _ _ _ _ _ _ h2
  refine ⟨by cases res.status <;> simp, ?_, ?_⟩
  · rcases hbr with ⟨-, rfl⟩ |
      ⟨-, ench, mx, in3, t3, lvl, in4, t4, cst, in5, t5, res6, -, -, -, h6, hres⟩
    · constructor
      · intro hst; exact Status.noConfusion hst
      · rintro ⟨r, hr⟩
        exfalso
        have : db2.librarian_trades = db.librarian_trades := by rw [ht2, ht1]
        rw [this] at hr
        have := congrArg List.length hr
        simp at this
    · obtain ⟨-, -, -, hbr6⟩ := duplicate_guard_shape db2 loc v ench lvl cst in5 res6 h6
      have hdbeq : res.db = res6.db := by rw [hres]
      have hsteq : res.status = res6.status := by rw [hres]
      rcases hbr6 with ⟨hst, hdb⟩ | ⟨hst, hdb, -⟩
      · constructor
        · intro _
          refine ⟨⟨v, ench, lvl, cst⟩, ?_⟩
          rw [hdbeq, hdb]
          show db2.librarian_trades ++ _ = _
          rw [ht2, ht1]
        · intro _
          rw [hsteq, hst]
      · constructor
        · intro hsucc
          rw [hsteq, hst] at hsucc
          exact absurd hsucc (by decide)
        · rintro ⟨r, hr⟩
          exfalso
          rw [hdbeq, hdb, ht2, ht1] at hr
          have := congrArg List.length hr
          simp at this
  · intro hne
    rcases hbr with ⟨-, rfl⟩ |
      ⟨-, ench, mx, in3, t3, lvl, in4, t4, cst, in5, t5, res6, -, -, -, h6, hres⟩
    · show db2.librarian_trades = db.librarian_trades
      rw [ht2, ht1]
    · obtain ⟨-, -, -, hbr6⟩ := duplicate_guard_shape db2 loc v ench lvl cst in5 res6 h6
      have hdbeq : res.db = res6.db := by rw [hres]
      have hsteq : res.status = res6.status := by rw [hres]
      rcases hbr6 with ⟨hst, hdb⟩ | ⟨hst, hdb, -⟩
      · exact absurd (hsteq.trans hst) hne
      · rw [hdbeq, hdb, ht2, ht1]

theorem c10_status_insert_witness :
    ((exRes.status = Status.success ∨ exRes.status = Status.cancelled ∨
        exRes.status = Status.full ∨ exRes.status = Status.error) ∧
      (exRes.status = Status.success ↔
        ∃ r, exRes.db.librarian_trades = exDB.librarian_trades ++ [r]) ∧
      (exRes.status ≠ Status.success →
        exRes.db.librarian_trades = exDB.librarian_trades)) :=
  c10_status_insert exDB none none 9 exInputs exRes (by decide)

/-- C3: when an identical trade row already exists, the insert happens only
after the override confirmation resolves to an explicit "y" (then exactly
the new row is appended and no other table changes), while a "n" answer
returns the cancelled status with the database exactly as it was at the
guard, so the trades table is unchanged and the location and villager
mutations committed earlier in the attempt remain in place. -/
theorem c3_duplicate_override (db : DB) (loc v ench : String) (lvl cst : Int)
    (inputs : List String) (res : AttemptResult)
    (hdup : has_duplicate db v ench lvl cst = true)
    (h : duplicate_guard db loc v ench lvl cst inputs = some res) :
    (res.status = Status.success ∨ res.status = Status.cancelled) ∧
    (res.status = Status.success →
      confirmLoop Prompt.duplicateConfirm inputs = some (true, res.rest, res.trace) ∧
      res.db.librarian_trades = db.librarian_trades ++ [⟨v, ench, lvl, cst⟩] ∧
      res.db.locations = db.locations ∧ res.db.villagers = db.villagers) ∧
    (res.status = Status.cancelled →
      confirmLoop Prompt.duplicateConfirm inputs = some (false, res.rest, res.trace) ∧
      res.db = db) := by
  unfold duplicate_guard at h
  rw [if_pos hdup] at h
  cases hc : confirmLoop Prompt.duplicateConfirm inputs with
  | none => rw [hc] at h; exact absurd h (by simp)
  | some r =>
    obtain ⟨b, rest2, t2⟩ := r
    rw [hc] at h
    cases b
    · simp only [Option.some.injEq] at h
      subst h
      exact ⟨Or.inr rfl, fun hst => absurd hst (by exact fun hx => Status.noConfusion hx),
        fun _ => ⟨rfl, rfl⟩⟩
    · simp only [Option.some.injEq] at h
      subst h
      refine ⟨Or.inl rfl, fun _ => ⟨rfl, rfl, rfl, rfl⟩,
        fun hst => absurd hst (by exact fun hx => Status.noConfusion hx)⟩

theorem c3_duplicate_override_witness :
    (exResCancel.status = Status.success ∨ exResCancel.status = Status.cancelled) ∧
    (exResCancel.status = Status.success →
      confirmLoop Prompt.duplicateConfirm ["n"] =
        some (true, exResCancel.rest, exResCancel.trace) ∧
      exResCancel.db.librarian_trades =
        exDBfull.librarian_trades ++ [⟨"spa001", "mending", 1, 10⟩] ∧
      exResCancel.db.locations = exDBfull.locations ∧
      exResCancel.db.villagers = exDBfull.villagers) ∧
    (exResCancel.status = Status.cancelled →
      confirmLoop Prompt.duplicateConfirm ["n"] =
        some (false, exResCancel.rest, exResCancel.trace) ∧
      exResCancel.db = exDBfull) :=
  c3_duplicate_override exDBfull "spawn" "spa001" "mending" 1 10 ["n"] exResCancel
    (by decide) (by decide)

/-- C6: for an existing librarian registered at a different location, an
explicit "y" answer to the relocation prompt updates exactly that villager
row, and only its location field, then returns the id; a "n" answer leaves
the villagers table untouched and reprompts for a different id. -/
theorem c6_relocation (db : DB) (cur : String) (fuel : Nat) (s : String)
    (rest : List String) (w : VillagerRow)
    (hemp : norm s ≠ "")
    (hfind : db.villagers.find? (fun y => y.villager_id == norm s) = some w)
    (hlib : w.job = "librarian") (hne : w.location ≠ cur) :
    (∀ rest2 t2, confirmLoop Prompt.moveConfirm rest = some (true, rest2, t2) →
      get_villager_id db cur (fuel + 1) (s :: rest) =
        some (norm s,
          { db with villagers := db.villagers.map (updateVillagerLoc (norm s) cur) },
          rest2, Prompt.villagerId :: t2)) ∧
    (∀ rest2 t2, confirmLoop Prompt.moveConfirm rest = some (false, rest2, t2) →
      get_villager_id db cur (fuel + 1) (s :: rest) =
        (get_villager_id db cur fuel rest2).map
          (fun r => (r.1, r.2.1, r.2.2.1, Prompt.villagerId :: t2 ++ r.2.2.2))) ∧
    ((db.villagers.map (updateVillagerLoc (norm s) cur)).map idJob =
      db.villagers.map idJob) ∧
    (∀ w' ∈ db.villagers, w'.villager_id ≠ norm s →
      updateVillagerLoc (norm s) cur w' = w') ∧
    (∀ w', (updateVillagerLoc (norm s) cur w').villager_id = w'.villager_id ∧
      (updateVillagerLoc (norm s) cur w').job = w'.job) := by
  refine ⟨?_, ?_, map_idJob_update _ _ _, ?_, ?_⟩
  · intro rest2 t2 hc
    simp only [get_villager_id]
    rw [if_neg hemp]
    simp only [hfind]
    rw [if_neg (not_not_intro hlib), if_pos hne]
    simp only [hc]
  · intro rest2 t2 hc
    simp only [get_villager_id]
    rw [if_neg hemp]
    simp only [hfind]
    rw [if_neg (not_not_intro hlib), if_pos hne]
    simp only [hc]
  · intro w' _ hwne
    simp [updateVillagerLoc, hwne]
  · intro w'
    constructor <;> · simp only [updateVillagerLoc]; split <;> rfl

theorem c6_relocation_witness :
    (∀ rest2 t2, confirmLoop Prompt.moveConfirm ["n", "spa002", "y"] =
        some (true, rest2, t2) →
      get_villager_id exDBmove "nether" 6 ("spa001" :: ["n", "spa002", "y"]) =
        some (norm "spa001",
          { exDBmove with
            villagers := exDBmove.villagers.map (updateVillagerLoc (norm "spa001") "nether") },
          rest2, Prompt.villagerId :: t2)) ∧
    (∀ rest2 t2, confirmLoop Prompt.moveConfirm ["n", "spa002", "y"] =
        some (false, rest2, t2) →
      get_villager_id exDBmove "nether" 6 ("spa001" :: ["n", "spa002", "y"]) =
        (get_villager_id exDBmove "nether" 5 rest2).map
          (fun r => (r.1, r.2.1, r.2.2.1, Prompt.villagerId :: t2 ++ r.2.2.2))) ∧
    ((exDBmove.villagers.map (updateVillagerLoc (norm "spa001") "nether")).map idJob =
      exDBmove.villagers.map idJob) ∧
    (∀ w' ∈ exDBmove.villagers, w'.villager_id ≠ norm "spa001" →
      updateVillagerLoc (norm "spa001") "nether" w' = w') ∧
    (∀ w', (updateVillagerLoc (norm "spa001") "nether" w').villager_id = w'.villager_id ∧
      (updateVillagerLoc (norm "spa001") "nether" w').job = w'.job) :=
  c6_relocation exDBmove "nether" 5 "spa001" ["n", "spa002", "y"]
    ⟨"spa001", "spawn", "librarian"⟩ (by decide) (by decide) (by decide) (by decide)

/-- C7: the villager resolver never returns an id whose first matching row
has a non-librarian job, and that row is still found unchanged after the
resolver returns; moreover a whole entry attempt preserves the
(villager_id, job) pair of every existing villager row, appending at most
new librarian pairs, so no job field is ever changed. -/
theorem c7_job_immutable :
    (∀ (db : DB) (cur : String) (fuel : Nat) (inputs : List String) (v : String)
        (db' : DB) (rest : List String) (t : List Prompt),
      get_villager_id db cur fuel inputs = some (v, db', rest, t) →
      (∀ w, db.villagers.find? (fun y => y.villager_id == v) = some w →
        w.job = "librarian") ∧
      (∀ x w, db.villagers.find? (fun y => y.villager_id == x) = some w →
        w.job ≠ "librarian" →
        db'.villagers.find? (fun y => y.villager_id == x) = some w)) ∧
    (∀ (db : DB) (pre_loc pre_v_id : Option String) (fuel : Nat)
        (inputs : List String) (res : AttemptResult),
      add_librarian_trade db pre_loc pre_v_id fuel inputs = some res →
      ∃ new, res.db.villagers.map idJob = db.villagers.map idJob ++ new ∧
        ∀ p ∈ new, p.2 = "librarian") := by
  constructor
  · intro db cur fuel inputs v db' rest t h
    obtain ⟨-, -, -, -, -, h6, h7⟩ :=
      get_villager_id_shape db cur fuel inputs v db' rest t h
    exact ⟨h6, h7⟩
  · intro db pre_loc pre_v_id fuel inputs res h
    obtain ⟨loc, db1, in1, t1, v, db2, in2, t2, h1, h2, hbr⟩ :=
      add_shape db pre_loc pre_v_id fuel inputs res h
    obtain ⟨hv1, -, -, -⟩ := resolve_location_shape _ _ _ _ _ _ _ _ h1
    obtain ⟨-, -, -, -, hjobs⟩ := resolve_villager_shape _ _ _ _ _ _ _ _ _ h2
    have hres_v : res.db.villagers = db2.villagers := by
      rcases hbr with ⟨-, rfl⟩ |
        ⟨-, ench, mx, in3, t3, lvl, in4, t4, cst, in5, t5, res6, -, -, -, h6, hres⟩
      · rfl
      · obtain ⟨-, -, -, hbr6⟩ := duplicate_guard_shape _ _ _ _ _ _ _ _ h6
        have hd : res.db = res6.db := by rw [hres]
        rcases hbr6 with ⟨-, hdb⟩ | ⟨-, hdb, -⟩
        · rw [hd, hdb]; rfl
        · rw [hd, hdb]
    rw [hres_v]
    rw [hv1] at hjobs
    rcases hjobs with hj | hj
    · exact ⟨[], by rw [hj, List.append_nil], by simp⟩
    · exact ⟨[(v, "librarian")], hj, by simp⟩

theorem c7_job_immutable_witness :
    ((∀ w, exDBfarm.villagers.find? (fun y => y.villager_id == "spa001") = some w →
        w.job = "librarian") ∧
      (∀ x w, exDBfarm.villagers.find? (fun y => y.villager_id == x) = some w →
        w.job ≠ "librarian" →
        exDBfarm2.villagers.find? (fun y => y.villager_id == x) = some w)) ∧
    (∃ new, exRes.db.villagers.map idJob = exDB.villagers.map idJob ++ new ∧
      ∀ p ∈ new, p.2 = "librarian") :=
  ⟨c7_job_immutable.1 exDBfarm "spawn" 5 ["farm01", "spa001", "y"] "spa001" exDBfarm2
      [] [Prompt.villagerId, Prompt.villagerId, Prompt.addVillagerConfirm] (by decide),
    c7_job_immutable.2 exDB none none 9 exInputs exRes (by decide)⟩

/-- C9: the location resolver returns an existing (normalized) name with no
mutation at all; for an unknown name it inserts the new row, with the two
parsed integer coordinates, only after an explicit "y" confirmation, and on
"n" it inserts nothing and reprompts for a different name. -/
theorem c9_location_resolver (db : DB) (fuel : Nat) (s : String)
    (rest : List String) (hemp : norm s ≠ "") :
    (locationExists db (norm s) = true →
      get_location db (fuel + 1) (s :: rest) =
        some (norm s, db, rest, [Prompt.location])) ∧
    (locationExists db (norm s) = false →
      ∀ rest2 t2, confirmLoop Prompt.addLocationConfirm rest = some (true, rest2, t2) →
        ∀ x z rest3 t3, getCoords rest2 = some (x, z, rest3, t3) →
          get_location db (fuel + 1) (s :: rest) =
            some (norm s,
              { db with locations := db.locations ++ [⟨norm s, x, z⟩] },
              rest3, Prompt.location :: t2 ++ t3)) ∧
    (locationExists db (norm s) = false →
      ∀ rest2 t2, confirmLoop Prompt.addLocationConfirm rest = some (false, rest2, t2) →
        get_location db (fuel + 1) (s :: rest) =
          (get_location db fuel rest2).map
            (fun r => (r.1, r.2.1, r.2.2.1, Prompt.location :: t2 ++ r.2.2.2))) := by
  refine ⟨?_, ?_, ?_⟩
  · intro hex
    simp only [get_location]
    rw [if_neg hemp, if_pos hex]
  · intro hex rest2 t2 hc x z rest3 t3 hco
    simp only [get_location]
    rw [if_neg hemp, if_neg (by simp [hex])]
    simp only [hc, hco]
    rfl
  · intro hex rest2 t2 hc
    simp only [get_location]
    rw [if_neg hemp, if_neg (by simp [hex])]
    simp only [hc]

theorem c9_location_resolver_witness :
    (locationExists exDB (norm "spawn") = true →
      get_location exDB 4 ("spawn" :: ["y", "0", "0"]) =
        some (norm "spawn", exDB, ["y", "0", "0"], [Prompt.location])) ∧
    (locationExists exDB (norm "spawn") = false →
      ∀ rest2 t2, confirmLoop Prompt.addLocationConfirm ["y", "0", "0"] =
          some (true, rest2, t2) →
        ∀ x z rest3 t3, getCoords rest2 = some (x, z, rest3, t3) →
          get_location exDB 4 ("spawn" :: ["y", "0", "0"]) =
            some (norm "spawn",
              { exDB with locations := exDB.locations ++ [⟨norm "spawn", x, z⟩] },
              rest3, Prompt.location :: t2 ++ t3)) ∧
    (locationExists exDB (norm "spawn") = false →
      ∀ rest2 t2, confirmLoop Prompt.addLocationConfirm ["y", "0", "0"] =
          some (false, rest2, t2) →
        get_location exDB 4 ("spawn" :: ["y", "0", "0"]) =
          (get_location exDB 3 rest2).map
            (fun r => (r.1, r.2.1, r.2.2.1, Prompt.location :: t2 ++ r.2.2.2))) :=
  c9_location_resolver exDB 3 "spawn" ["y", "0", "0"] (by decide)


end MCTrade
